import Mathlib

/-!
Verification development for the covid-world-map repository.

The embedding models `src/utils/csvParser.ts` (sample data, `parseCSV`,
`processCountryData`) and `src/components/DataPanel.tsx` (the WorldMap
component's `countryDataMap`, `getCountryColor` and `handleCountryClick`).
Field values arrive from CSV as text (`dynamicTyping: false`) or as numbers
in the hardcoded sample, so a field is a string or a (finite) number; JS
numbers are modelled by `Rat`, with NaN as an explicit `Option`/`JsNum` case.
-/

/-- A raw field value: the TypeScript side declares them `string | number`. -/
inductive FieldVal where
  | str (s : String)
  | num (q : Rat)
deriving DecidableEq

/-- Digit run to its decimal value. -/
def digitsVal (cs : List Char) : Nat :=
  cs.foldl (fun a c => a * 10 + (c.toNat - 48)) 0

/-- Drop surrounding whitespace, as JS `Number(string)` does before parsing. -/
def trimChars (cs : List Char) : List Char :=
  ((cs.dropWhile Char.isWhitespace).reverse.dropWhile Char.isWhitespace).reverse

/-- Decimal literal `digits [. digits]` (either side may be empty but not
both), the grammar of the numeric strings this dataset carries.
`none` models NaN. -/
def parseDecimal (cs : List Char) : Option Rat :=
  let intPart := cs.takeWhile Char.isDigit
  let rest := cs.dropWhile Char.isDigit
  match rest with
  | [] => if intPart.isEmpty then none else some (digitsVal intPart : Rat)
  | '.' :: frac =>
    if (intPart.isEmpty && frac.isEmpty) || !(frac.all Char.isDigit) then none
    else some ((digitsVal intPart : Rat) + (digitsVal frac : Rat) / ((10 : Rat) ^ frac.length))
  | _ => none

/-- JS `Number(s)` on the dataset's value space: trimmed empty string is 0,
an optionally signed decimal literal is its value, anything else is NaN
(`none`).  Exponent/hex/Infinity forms do not occur in this dataset and are
not modelled. -/
def jsNumber (s : String) : Option Rat :=
  match trimChars s.toList with
  | [] => some 0
  | '-' :: cs => (parseDecimal cs).map (fun q => -q)
  | '+' :: cs => parseDecimal cs
  | cs => parseDecimal cs

/-- The coercion `Number(v) || 0` applied throughout the aggregators: a
numeric field is kept, a numeric string is parsed, and NaN (non-numeric
text) falls to 0.  (`||` also sends `0` to `0`, which is the identity.) -/
def numOr0 (f : FieldVal) : Rat :=
  match f with
  | .num q => q
  | .str s => (jsNumber s).getD 0

/-- Split a character list on `'-'`. -/
def splitDash : List Char → List (List Char)
  | [] => [[]]
  | c :: cs =>
    let rest := splitDash cs
    if c = '-' then [] :: rest
    else
      match rest with
      | [] => [[c]]
      | g :: gs => (c :: g) :: gs

/-- Value of one dash-separated chunk of a date string. -/
def chunkVal (cs : List Char) : Nat :=
  if cs.isEmpty then 0
  else if cs.all Char.isDigit then digitsVal cs
  else 0

/-- Order-faithful model of `new Date(s).getTime()` for the dataset's
`YYYY-MM-DD` date strings: on well-formed dates the epoch time is strictly
monotone in the `(year, month, day)` triple, so this key induces the same
comparator order as the source's `new Date(b.date).getTime() -
new Date(a.date).getTime()`. -/
def dateKey (s : String) : Nat :=
  match (splitDash s.toList).map chunkVal with
  | [y, m, d] => y * 10000 + m * 100 + d
  | _ => 0

/-- One row of the dataset (`CovidData` in `src/types`), restricted to the
fields the aggregation, coloring and tooltip logic reads; the remaining
fields of the row are never consumed by the code under verification. -/
structure CovidData where
  iso_code : String
  continent : String
  location : String
  date : String
  total_cases : FieldVal
  total_deaths : FieldVal
  total_vaccinations : FieldVal
  population : FieldVal
  total_cases_per_million : FieldVal
  total_deaths_per_million : FieldVal
  total_vaccinations_per_hundred : FieldVal
deriving DecidableEq

/-- The derived per-country aggregate (`CountryData` in `src/types`). -/
structure CountryData where
  location : String
  iso_code : String
  continent : String
  latestData : CovidData
  totalCases : Rat
  totalDeaths : Rat
  totalVaccinations : Rat
  population : Rat
  casesPerMillion : Rat
  deathsPerMillion : Rat
  vaccinationRate : Rat
deriving DecidableEq

/-- `Math.max(...xs)` for the nonempty argument lists the aggregator builds
(the empty case never arises: groups always hold at least one record). -/
def jsMax : List Rat → Rat
  | [] => 0
  | x :: xs => xs.foldl max x

/-- Insert a record into a list already sorted by descending date, after any
records of equal or later date: the stable descending order produced by
`records.sort((a, b) => new Date(b.date).getTime() - new Date(a.date).getTime())`. -/
def insertByDateDesc (r : CovidData) : List CovidData → List CovidData
  | [] => [r]
  | a :: as =>
    if dateKey a.date < dateKey r.date then r :: a :: as
    else a :: insertByDateDesc r as

/-- Stable sort by descending date (JS `Array.prototype.sort` is stable). -/
def sortByDateDesc (l : List CovidData) : List CovidData :=
  l.foldl (fun acc r => insertByDateDesc r acc) []

/-- `Map.get(location).push(record)` when the key exists, else
`Map.set(location, [record])` appending a new key at the end — the body of
the grouping loop's truthy branch. -/
def pushTo (loc : String) (r : CovidData) : List (String × List CovidData) → List (String × List CovidData)
  | [] => [(loc, [r])]
  | p :: ps => if p.1 = loc then (p.1, p.2 ++ [r]) :: ps else p :: pushTo loc r ps

/-- One step of the first pass: `if (record.location && record.iso_code)`
(a string is truthy exactly when nonempty) groups the record under its
location, otherwise drops it. -/
def addRecord (gs : List (String × List CovidData)) (r : CovidData) : List (String × List CovidData) :=
  if r.location ≠ "" ∧ r.iso_code ≠ "" then pushTo r.location r gs else gs

/-- First pass of `processCountryData`: group records by country location,
in first-occurrence key order (a JS `Map` preserves insertion order). -/
def countryGroups (l : List CovidData) : List (String × List CovidData) :=
  l.foldl addRecord []

/-- Second pass of `processCountryData` for one group: sort by date
descending, take the head as the latest record, aggregate the three
cumulative maxima over the (sorted) records and coerce the convenience
scalars from the latest record.  `none` is the `if (records.length === 0)
return` guard. -/
def processCountry (location : String) (records : List CovidData) : Option CountryData :=
  match sortByDateDesc records with
  | [] => none
  | latestRecord :: rest =>
    some {
      location := location
      iso_code := latestRecord.iso_code
      continent := latestRecord.continent
      latestData := latestRecord
      totalCases := jsMax ((latestRecord :: rest).map (fun r => numOr0 r.total_cases))
      totalDeaths := jsMax ((latestRecord :: rest).map (fun r => numOr0 r.total_deaths))
      totalVaccinations := jsMax ((latestRecord :: rest).map (fun r => numOr0 r.total_vaccinations))
      population := numOr0 latestRecord.population
      casesPerMillion := numOr0 latestRecord.total_cases_per_million
      deathsPerMillion := numOr0 latestRecord.total_deaths_per_million
      vaccinationRate := numOr0 latestRecord.total_vaccinations_per_hundred
    }

/-- `processCountryData` of `src/utils/csvParser.ts`: group, then emit one
aggregated `CountryData` per nonempty group, in group order. -/
def processCountryData (covidData : List CovidData) : List CountryData :=
  (countryGroups covidData).filterMap (fun p => processCountry p.1 p.2)

/-- The sub-list of the input records that the grouping loop files under a
given location: the records with that location whose `location` and
`iso_code` are both nonempty. -/
def partOf (l : List CovidData) (loc : String) : List CovidData :=
  l.filter (fun r => decide (r.location = loc ∧ r.location ≠ "" ∧ r.iso_code ≠ ""))

namespace WorldMap

/-- First pass of the WorldMap component's `countryDataMap` memo in
`src/components/DataPanel.tsx`: the grouping loop there is line-for-line the
same as in `csvParser.ts`. -/
def countryGroups (l : List CovidData) : List (String × List CovidData) :=
  l.foldl addRecord []

/-- Second pass of the `countryDataMap` memo for one group, line-for-line
the body of `processCountryData`'s second loop, except that the result is
`map.set(location, ...)` instead of a push onto an array. -/
def processCountry (location : String) (records : List CovidData) : Option CountryData :=
  match sortByDateDesc records with
  | [] => none
  | latestRecord :: rest =>
    some {
      location := location
      iso_code := latestRecord.iso_code
      continent := latestRecord.continent
      latestData := latestRecord
      totalCases := jsMax ((latestRecord :: rest).map (fun r => numOr0 r.total_cases))
      totalDeaths := jsMax ((latestRecord :: rest).map (fun r => numOr0 r.total_deaths))
      totalVaccinations := jsMax ((latestRecord :: rest).map (fun r => numOr0 r.total_vaccinations))
      population := numOr0 latestRecord.population
      casesPerMillion := numOr0 latestRecord.total_cases_per_million
      deathsPerMillion := numOr0 latestRecord.total_deaths_per_million
      vaccinationRate := numOr0 latestRecord.total_vaccinations_per_hundred
    }

/-- The `countryDataMap` memo: a `Map` from country name to `CountryData`,
modelled as an association list in key-insertion order (group keys are
distinct, so `map.set` never overwrites). -/
def countryDataMap (covidData : List CovidData) : List (String × CountryData) :=
  (countryGroups covidData).filterMap
    (fun p => (processCountry p.1 p.2).map (fun cd => (p.1, cd)))

end WorldMap

/-- `Map.get(countryName)` on the modelled `countryDataMap`: the value at
the first (hence, keys being distinct, only) matching key. -/
def mapGet (m : List (String × CountryData)) (k : String) : Option CountryData :=
  (m.find? (fun p => p.1 == k)).map (fun p => p.2)

/-- A JS number that may be NaN, the input domain of the color scale. -/
inductive JsNum where
  | val (q : Rat)
  | nan
deriving DecidableEq

/-- The color scale of `getCountryColor`: light gray for no data
(`!cpm || cpm === 0 || isNaN(cpm)` — a number is falsy exactly when it is
`0` or NaN), otherwise eight buckets by ascending strict thresholds. -/
def classifyCasesPerMillion (casesPerMillion : JsNum) : String :=
  match casesPerMillion with
  | .nan => "#f0f0f0"
  | .val q =>
    if q = 0 then "#f0f0f0"
    else if q < 1000 then "#e8f5e8"
    else if q < 10000 then "#c8e6c9"
    else if q < 50000 then "#81c784"
    else if q < 100000 then "#4caf50"
    else if q < 200000 then "#388e3c"
    else if q < 500000 then "#ff9800"
    else if q < 1000000 then "#f57c00"
    else "#d32f2f"

/-- `getCountryColor(countryName)` of the WorldMap component: look the name
up in `countryDataMap`; a missing entry is light gray, otherwise the
`casesPerMillion` scalar (a finite number by construction) is classified. -/
def getCountryColor (countryDataMap : List (String × CountryData)) (countryName : String) : String :=
  match mapGet countryDataMap countryName with
  | none => "#f0f0f0"
  | some countryData => classifyCasesPerMillion (JsNum.val countryData.casesPerMillion)

/-- `handleCountryClick(countryName)` of the WorldMap component: look the
name up and call `onCountrySelect` only on a hit.  The result is the list of
`onCountrySelect` notifications the click fires. -/
def handleCountryClick (countryDataMap : List (String × CountryData)) (countryName : String) : List CountryData :=
  match mapGet countryDataMap countryName with
  | some countryData => [countryData]
  | none => []

/-- `handleCountrySelect` of the App component (the third document embedded
in `src/components/DataPanel.tsx`): the handler wired to the map's
`onCountrySelect` prop runs `setSelectedCountry(countryData)`, so the new
`selectedCountry` state is the carried summary, whatever was selected
before; nothing ever clears it back to `null`. -/
def handleCountrySelect (_selectedCountry : Option CountryData) (countryData : CountryData) : Option CountryData :=
  some countryData

/-- The App component's `selectedCountry` state after one click event: each
`onCountrySelect` notification the click fired is dispatched in order to
`handleCountrySelect` (`onCountrySelect={handleCountrySelect}` in App's
render of `WorldMap`); a click that fired no notification leaves the state
untouched. -/
def applySelection (selected : Option CountryData) (events : List CountryData) : Option CountryData :=
  events.foldl handleCountrySelect selected

/-- One row outcome of the CSV decode.  Modelled from the spec: the decoding
library (PapaParse) is an external collaborator whose code is not in the
repository; per spec sections 4.1 and 7, a malformed row is skipped, not
fatal, and well-formed rows become Raw Records. -/
inductive RowResult where
  | good (r : CovidData)
  | malformed
deriving DecidableEq

/-- Modelled from the spec: the record sequence the decode delivers to the
`complete` callback — every well-formed row, in order, with malformed rows
skipped and never an error. -/
def papaData (rows : List RowResult) : List CovidData :=
  rows.filterMap (fun row =>
    match row with
    | .good r => some r
    | .malformed => none)

/-- Outcome of the whole decode: PapaParse either calls `complete` with the
row outcomes or calls `error`. -/
inductive PapaResult where
  | complete (rows : List RowResult)
  | error

/-- Outcome of `fetch('/owid-covid-data.csv')` as the `try` block observes
it: a thrown network error, a response with `ok` false (e.g. 404), or a body
handed to PapaParse. -/
inductive FetchResult where
  | fetchError
  | notOk
  | ok (parsed : PapaResult)

/-- The hardcoded fallback dataset of `csvParser.ts` (`getSampleData`),
restricted to the modelled fields. -/
def getSampleData : List CovidData :=
  [ { iso_code := "US"
      continent := "North America"
      location := "United States"
      date := "2023-12-01"
      total_cases := .num 103436829
      total_deaths := .num 1127152
      total_vaccinations := .num 676728381
      population := .num 333287557
      total_cases_per_million := .num 309848
      total_deaths_per_million := .num 3379
      total_vaccinations_per_hundred := .num (2031 / 10) },
    { iso_code := "GB"
      continent := "Europe"
      location := "United Kingdom"
      date := "2023-12-01"
      total_cases := .num 24685189
      total_deaths := .num 213915
      total_vaccinations := .num 151522471
      population := .num 68138484
      total_cases_per_million := .num 362320
      total_deaths_per_million := .num 3140
      total_vaccinations_per_hundred := .num (2224 / 10) },
    { iso_code := "DE"
      continent := "Europe"
      location := "Germany"
      date := "2023-12-01"
      total_cases := .num 38112157
      total_deaths := .num 174352
      total_vaccinations := .num 192479369
      population := .num 83422553
      total_cases_per_million := .num 456789
      total_deaths_per_million := .num 2091
      total_vaccinations_per_hundred := .num (2308 / 10) } ]

/-- `parseCSV` of `csvParser.ts` as a function of the environment's
response: a fetch error or a non-ok response resolves to the sample data, a
fetched body resolves to PapaParse's records on `complete` and falls back to
the sample data on `error`. -/
def parseCSV : FetchResult → List CovidData
  | .fetchError => getSampleData
  | .notOk => getSampleData
  | .ok (.complete rows) => papaData rows
  | .ok .error => getSampleData

/-! ### Lemmas about `jsMax` -/

theorem seed_le_foldl_max (xs : List Rat) : ∀ x : Rat, x ≤ xs.foldl max x := by
  induction xs with
  | nil => intro x; exact le_refl x
  | cons y ys ih =>
    intro x
    exact le_trans (le_max_left x y) (ih (max x y))

theorem mem_le_foldl_max (xs : List Rat) : ∀ (x y : Rat), y ∈ xs → y ≤ xs.foldl max x := by
  induction xs with
  | nil => intro x y h; cases h
  | cons z zs ih =>
    intro x y h
    rcases List.mem_cons.mp h with h | h
    · subst h
      exact le_trans (le_max_right x y) (seed_le_foldl_max zs (max x y))
    · exact ih (max x z) y h

theorem foldl_max_mem (xs : List Rat) : ∀ x : Rat, xs.foldl max x ∈ x :: xs := by
  induction xs with
  | nil => intro x; exact List.mem_singleton.mpr rfl
  | cons y ys ih =>
    intro x
    rw [List.foldl_cons]
    have h := ih (max x y)
    rcases List.mem_cons.mp h with h' | h'
    · rcases max_choice x y with hm | hm
      · rw [h'.trans hm]; exact List.mem_cons_self x (y :: ys)
      · rw [h'.trans hm]
        exact List.mem_cons.mpr (Or.inr (List.mem_cons_self y ys))
    · exact List.mem_cons.mpr (Or.inr (List.mem_cons.mpr (Or.inr h')))

theorem jsMax_mem {l : List Rat} (h : l ≠ []) : jsMax l ∈ l := by
  cases l with
  | nil => exact absurd rfl h
  | cons x xs => exact foldl_max_mem xs x

theorem le_jsMax {l : List Rat} {y : Rat} (h : y ∈ l) : y ≤ jsMax l := by
  cases l with
  | nil => cases h
  | cons x xs =>
    rcases List.mem_cons.mp h with h' | h'
    · subst h'; exact seed_le_foldl_max xs y
    · exact mem_le_foldl_max xs x y h'

theorem jsMax_congr {l₁ l₂ : List Rat} (h₁ : l₁ ≠ []) (h₂ : l₂ ≠ [])
    (h : ∀ y, y ∈ l₁ ↔ y ∈ l₂) : jsMax l₁ = jsMax l₂ :=
  le_antisymm (le_jsMax ((h _).mp (jsMax_mem h₁))) (le_jsMax ((h _).mpr (jsMax_mem h₂)))

/-! ### Lemmas about the date sort -/

theorem mem_insertByDateDesc {y r : CovidData} :
    ∀ {l : List CovidData}, y ∈ insertByDateDesc r l ↔ y = r ∨ y ∈ l := by
  intro l
  induction l with
  | nil => simp [insertByDateDesc]
  | cons a as ih =>
    by_cases h : dateKey a.date < dateKey r.date
    · simp [insertByDateDesc, h, List.mem_cons]
    · simp only [insertByDateDesc, if_neg h, List.mem_cons, ih]
      tauto

theorem pairwise_insertByDateDesc {r : CovidData} :
    ∀ {l : List CovidData},
      l.Pairwise (fun a b => dateKey b.date ≤ dateKey a.date) →
      (insertByDateDesc r l).Pairwise (fun a b => dateKey b.date ≤ dateKey a.date) := by
  intro l
  induction l with
  | nil => intro _; simp [insertByDateDesc]
  | cons a as ih =>
    intro hp
    rcases List.pairwise_cons.mp hp with ⟨ha, has⟩
    by_cases h : dateKey a.date < dateKey r.date
    · rw [insertByDateDesc, if_pos h]
      refine List.pairwise_cons.mpr ⟨?_, hp⟩
      intro y hy
      rcases List.mem_cons.mp hy with hy | hy
      · exact le_of_lt (hy ▸ h)
      · exact le_trans (ha y hy) (le_of_lt h)
    · rw [insertByDateDesc, if_neg h]
      refine List.pairwise_cons.mpr ⟨?_, ih has⟩
      intro y hy
      rcases mem_insertByDateDesc.mp hy with hy | hy
      · exact hy ▸ le_of_not_lt h
      · exact ha y hy

theorem mem_foldl_insert (l : List CovidData) :
    ∀ (acc : List CovidData) (y : CovidData),
      y ∈ l.foldl (fun acc r => insertByDateDesc r acc) acc ↔ y ∈ acc ∨ y ∈ l := by
  induction l with
  | nil => simp
  | cons r t ih =>
    intro acc y
    simp only [List.foldl_cons, ih, mem_insertByDateDesc, List.mem_cons]
    tauto

theorem mem_sortByDateDesc {l : List CovidData} {y : CovidData} :
    y ∈ sortByDateDesc l ↔ y ∈ l := by
  unfold sortByDateDesc
  rw [mem_foldl_insert]
  simp

theorem pairwise_foldl_insert (l : List CovidData) :
    ∀ acc : List CovidData,
      acc.Pairwise (fun a b => dateKey b.date ≤ dateKey a.date) →
      (l.foldl (fun acc r => insertByDateDesc r acc) acc).Pairwise
        (fun a b => dateKey b.date ≤ dateKey a.date) := by
  induction l with
  | nil => intro acc h; exact h
  | cons r t ih =>
    intro acc h
    exact ih _ (pairwise_insertByDateDesc h)

theorem pairwise_sortByDateDesc (l : List CovidData) :
    (sortByDateDesc l).Pairwise (fun a b => dateKey b.date ≤ dateKey a.date) :=
  pairwise_foldl_insert l [] List.Pairwise.nil

theorem sortByDateDesc_eq_nil {l : List CovidData} :
    sortByDateDesc l = [] ↔ l = [] := by
  constructor
  · intro h
    cases hl : l with
    | nil => rfl
    | cons x xs =>
      have : x ∈ sortByDateDesc l := mem_sortByDateDesc.mpr (hl ▸ List.mem_cons_self x xs)
      rw [h] at this
      cases this
  · intro h; subst h; rfl

theorem head_sortByDateDesc_max {l : List CovidData} {x : CovidData} {rest : List CovidData}
    (h : sortByDateDesc l = x :: rest) :
    x ∈ l ∧ ∀ y ∈ l, dateKey y.date ≤ dateKey x.date := by
  constructor
  · exact mem_sortByDateDesc.mp (h ▸ List.mem_cons_self x rest)
  · intro y hy
    have hy' : y ∈ x :: rest := h ▸ mem_sortByDateDesc.mpr hy
    rcases List.mem_cons.mp hy' with hy' | hy'
    · exact le_of_eq (hy' ▸ rfl)
    · have hp := pairwise_sortByDateDesc l
      rw [h] at hp
      exact (List.pairwise_cons.mp hp).1 y hy'

/-! ### Lemmas about the grouping pass -/

/-- Lookup of one group by its key (the model of `Map.get` on the grouping
map). -/
def findGroup (gs : List (String × List CovidData)) (loc : String) : Option (List CovidData) :=
  (gs.find? (fun p => p.1 == loc)).map (fun p => p.2)

theorem findGroup_nil (loc : String) : findGroup [] loc = none := rfl

theorem findGroup_pushTo_self (loc : String) (r : CovidData) :
    ∀ gs, findGroup (pushTo loc r gs) loc = some ((findGroup gs loc).getD [] ++ [r]) := by
  intro gs
  induction gs with
  | nil => simp [pushTo, findGroup]
  | cons p ps ih =>
    by_cases h : p.1 = loc
    · simp [pushTo, findGroup, if_pos h, List.find?, h]
    · have hb : (p.1 == loc) = false := beq_eq_false_iff_ne.mpr h
      simp only [pushTo, if_neg h, findGroup, List.find?, hb] at ih ⊢
      exact ih

theorem findGroup_pushTo_ne (loc loc' : String) (r : CovidData) (h : loc' ≠ loc) :
    ∀ gs, findGroup (pushTo loc r gs) loc' = findGroup gs loc' := by
  intro gs
  induction gs with
  | nil =>
    have hb : (loc == loc') = false := beq_eq_false_iff_ne.mpr (Ne.symm h)
    simp [pushTo, findGroup, List.find?, hb]
  | cons p ps ih =>
    by_cases hp : p.1 = loc
    · have hb : (p.1 == loc') = false := beq_eq_false_iff_ne.mpr (hp ▸ (Ne.symm h))
      simp [pushTo, findGroup, if_pos hp, List.find?, hb]
    · by_cases hq : p.1 = loc'
      · have hb : (p.1 == loc') = true := beq_iff_eq.mpr hq
        simp [pushTo, findGroup, if_neg hp, List.find?, hb]
      · have hb : (p.1 == loc') = false := beq_eq_false_iff_ne.mpr hq
        simp only [pushTo, if_neg hp, findGroup, List.find?, hb] at ih ⊢
        exact ih

theorem mem_keys_pushTo (loc k : String) (r : CovidData) :
    ∀ gs, k ∈ (pushTo loc r gs).map Prod.fst ↔ k ∈ gs.map Prod.fst ∨ k = loc := by
  intro gs
  induction gs with
  | nil => simp [pushTo]
  | cons p ps ih =>
    by_cases h : p.1 = loc
    · by_cases hk : k = loc <;> simp [pushTo, if_pos h, hk, h]
    · simp only [pushTo, if_neg h, List.map_cons, List.mem_cons, ih]
      tauto

theorem nodup_keys_pushTo (loc : String) (r : CovidData) :
    ∀ gs, (gs.map Prod.fst).Nodup → ((pushTo loc r gs).map Prod.fst).Nodup := by
  intro gs
  induction gs with
  | nil => intro _; simp [pushTo]
  | cons p ps ih =>
    intro h
    rw [List.map_cons, List.nodup_cons] at h
    by_cases hp : p.1 = loc
    · simp only [pushTo, if_pos hp, List.map_cons, List.nodup_cons]
      exact ⟨h.1, h.2⟩
    · simp only [pushTo, if_neg hp, List.map_cons, List.nodup_cons]
      refine ⟨?_, ih h.2⟩
      intro hc
      rcases (mem_keys_pushTo loc p.1 r ps).mp hc with hc | hc
      · exact h.1 hc
      · exact hp hc

theorem keys_addRecord_ne_empty (gs : List (String × List CovidData)) (r : CovidData)
    (h : ∀ k ∈ gs.map Prod.fst, k ≠ "") :
    ∀ k ∈ (addRecord gs r).map Prod.fst, k ≠ "" := by
  unfold addRecord
  by_cases hv : r.location ≠ "" ∧ r.iso_code ≠ ""
  · rw [if_pos hv]
    intro k hk
    rcases (mem_keys_pushTo r.location k r gs).mp hk with hk | hk
    · exact h k hk
    · exact hk ▸ hv.1
  · rw [if_neg hv]; exact h

theorem nodup_keys_addRecord (gs : List (String × List CovidData)) (r : CovidData)
    (h : (gs.map Prod.fst).Nodup) : ((addRecord gs r).map Prod.fst).Nodup := by
  unfold addRecord
  by_cases hv : r.location ≠ "" ∧ r.iso_code ≠ ""
  · rw [if_pos hv]; exact nodup_keys_pushTo r.location r gs h
  · rw [if_neg hv]; exact h

theorem nodup_keys_foldl (l : List CovidData) :
    ∀ gs, (gs.map Prod.fst).Nodup → ((l.foldl addRecord gs).map Prod.fst).Nodup := by
  induction l with
  | nil => intro gs h; exact h
  | cons r t ih => intro gs h; exact ih _ (nodup_keys_addRecord gs r h)

theorem nodup_keys_countryGroups (l : List CovidData) :
    ((countryGroups l).map Prod.fst).Nodup :=
  nodup_keys_foldl l [] List.nodup_nil

theorem keys_foldl_ne_empty (l : List CovidData) :
    ∀ gs, (∀ k ∈ gs.map Prod.fst, k ≠ "") →
      ∀ k ∈ (l.foldl addRecord gs).map Prod.fst, k ≠ "" := by
  induction l with
  | nil => intro gs h; exact h
  | cons r t ih => intro gs h; exact ih _ (keys_addRecord_ne_empty gs r h)

theorem keys_countryGroups_ne_empty (l : List CovidData) :
    ∀ k ∈ (countryGroups l).map Prod.fst, k ≠ "" :=
  keys_foldl_ne_empty l [] (by intro k hk; cases hk)

theorem partOf_cons (r : CovidData) (t : List CovidData) (loc : String) :
    partOf (r :: t) loc =
      if r.location = loc ∧ r.location ≠ "" ∧ r.iso_code ≠ ""
      then r :: partOf t loc else partOf t loc := by
  by_cases h : r.location = loc ∧ r.location ≠ "" ∧ r.iso_code ≠ ""
  · simp [partOf, List.filter_cons, h]
  · simp [partOf, List.filter_cons, h]

theorem findGroup_foldl (l : List CovidData) :
    ∀ (gs : List (String × List CovidData)) (loc : String),
      findGroup (l.foldl addRecord gs) loc =
        if findGroup gs loc = none ∧ partOf l loc = [] then none
        else some ((findGroup gs loc).getD [] ++ partOf l loc) := by
  induction l with
  | nil =>
    intro gs loc
    cases h : findGroup gs loc with
    | none => simp [partOf, h]
    | some v => simp [partOf, h]
  | cons r t ih =>
    intro gs loc
    rw [List.foldl_cons]
    by_cases hv : r.location ≠ "" ∧ r.iso_code ≠ ""
    · by_cases hl : r.location = loc
      · -- the record joins the group at `loc`
        have hstep : addRecord gs r = pushTo loc r gs := by
          rw [addRecord, if_pos hv, hl]
        have hpart : partOf (r :: t) loc = r :: partOf t loc := by
          rw [partOf_cons, if_pos ⟨hl, hv⟩]
        rw [hstep, ih, findGroup_pushTo_self, hpart]
        have hne : ¬(some ((findGroup gs loc).getD [] ++ [r]) = none ∧ partOf t loc = []) := by
          intro hc; cases hc.1
        rw [if_neg hne]
        cases h : findGroup gs loc with
        | none => simp
        | some v => simp
      · -- the record belongs to another group
        have hstep : addRecord gs r = pushTo r.location r gs := by
          rw [addRecord, if_pos hv]
        have hpart : partOf (r :: t) loc = partOf t loc := by
          rw [partOf_cons, if_neg (by intro hc; exact hl hc.1)]
        rw [hstep, ih, findGroup_pushTo_ne r.location loc r (fun h => hl h.symm), hpart]
    · -- the record is dropped
      have hstep : addRecord gs r = gs := by rw [addRecord, if_neg hv]
      have hpart : partOf (r :: t) loc = partOf t loc := by
        rw [partOf_cons, if_neg (by intro hc; exact hv hc.2)]
      rw [hstep, ih, hpart]

theorem findGroup_countryGroups (l : List CovidData) (loc : String) :
    findGroup (countryGroups l) loc =
      if partOf l loc = [] then none else some (partOf l loc) := by
  rw [countryGroups, findGroup_foldl l [] loc]
  by_cases h : partOf l loc = [] <;> simp [findGroup_nil, h]

theorem findGroup_eq_some_mem {gs : List (String × List CovidData)} {loc : String}
    {v : List CovidData} (h : findGroup gs loc = some v) : (loc, v) ∈ gs := by
  rcases Option.map_eq_some'.mp h with ⟨p, hp, hv⟩
  have hmem := List.mem_of_find?_eq_some hp
  have hkey' := List.find?_some hp
  have hkey : p.1 = loc := by simpa using hkey'
  have : p = (loc, v) := by
    cases p
    simp only at hkey hv
    rw [hkey, hv]
  exact this ▸ hmem

theorem findGroup_of_mem_nodup {gs : List (String × List CovidData)} {loc : String}
    {v : List CovidData} (hnd : (gs.map Prod.fst).Nodup) (h : (loc, v) ∈ gs) :
    findGroup gs loc = some v := by
  induction gs with
  | nil => cases h
  | cons p ps ih =>
    rw [List.map_cons, List.nodup_cons] at hnd
    rcases List.mem_cons.mp h with h | h
    · rw [findGroup, List.find?, ← h]
      simp
    · have hne : p.1 ≠ loc := by
        intro hc
        exact hnd.1 (hc ▸ (List.mem_map_of_mem Prod.fst h))
      have hb : (p.1 == loc) = false := beq_eq_false_iff_ne.mpr hne
      rw [findGroup, List.find?, hb]
      exact ih hnd.2 h

theorem mem_countryGroups_iff {l : List CovidData} {loc : String} {v : List CovidData} :
    (loc, v) ∈ countryGroups l ↔ (partOf l loc ≠ [] ∧ v = partOf l loc) := by
  constructor
  · intro h
    have hf := findGroup_of_mem_nodup (nodup_keys_countryGroups l) h
    rw [findGroup_countryGroups] at hf
    by_cases hp : partOf l loc = []
    · rw [if_pos hp] at hf; cases hf
    · rw [if_neg hp] at hf
      exact ⟨hp, (Option.some_inj.mp hf).symm⟩
  · intro ⟨hne, hv⟩
    subst hv
    apply findGroup_eq_some_mem
    rw [findGroup_countryGroups, if_neg hne]

/-! ### Lemmas about `processCountry` -/

theorem processCountry_eq_some {loc : String} {recs : List CovidData} {cd : CountryData}
    (h : processCountry loc recs = some cd) :
    ∃ rest, sortByDateDesc recs = cd.latestData :: rest ∧
      cd.location = loc ∧
      cd.iso_code = cd.latestData.iso_code ∧
      cd.continent = cd.latestData.continent ∧
      cd.totalCases = jsMax ((sortByDateDesc recs).map (fun r => numOr0 r.total_cases)) ∧
      cd.totalDeaths = jsMax ((sortByDateDesc recs).map (fun r => numOr0 r.total_deaths)) ∧
      cd.totalVaccinations = jsMax ((sortByDateDesc recs).map (fun r => numOr0 r.total_vaccinations)) ∧
      cd.population = numOr0 cd.latestData.population ∧
      cd.casesPerMillion = numOr0 cd.latestData.total_cases_per_million ∧
      cd.deathsPerMillion = numOr0 cd.latestData.total_deaths_per_million ∧
      cd.vaccinationRate = numOr0 cd.latestData.total_vaccinations_per_hundred := by
  unfold processCountry at h
  cases hs : sortByDateDesc recs with
  | nil => rw [hs] at h; cases h
  | cons latest rest =>
    rw [hs] at h
    have hcd := (Option.some_inj.mp h).symm
    refine ⟨rest, ?_, ?_⟩
    · rw [hcd]
    · rw [hcd]
      simp

theorem processCountry_ne_none {loc : String} {recs : List CovidData} (h : recs ≠ []) :
    ∃ cd, processCountry loc recs = some cd := by
  unfold processCountry
  cases hs : sortByDateDesc recs with
  | nil => exact absurd (sortByDateDesc_eq_nil.mp hs) h
  | cons latest rest => exact ⟨_, rfl⟩

theorem processCountry_location {loc : String} {recs : List CovidData} {cd : CountryData}
    (h : processCountry loc recs = some cd) : cd.location = loc :=
  (processCountry_eq_some h).choose_spec.2.1

theorem mem_processCountryData {l : List CovidData} {cd : CountryData} :
    cd ∈ processCountryData l ↔
      ∃ loc, partOf l loc ≠ [] ∧ processCountry loc (partOf l loc) = some cd := by
  unfold processCountryData
  rw [List.mem_filterMap]
  constructor
  · intro ⟨p, hp, hcd⟩
    have hmem : (p.1, p.2) ∈ countryGroups l := by
      cases p; exact hp
    rcases mem_countryGroups_iff.mp hmem with ⟨hne, hv⟩
    exact ⟨p.1, hne, hv ▸ hcd⟩
  · intro ⟨loc, hne, hcd⟩
    exact ⟨(loc, partOf l loc), mem_countryGroups_iff.mpr ⟨hne, rfl⟩, hcd⟩

theorem mem_partOf {l : List CovidData} {loc : String} {r : CovidData} :
    r ∈ partOf l loc ↔ r ∈ l ∧ (r.location = loc ∧ r.location ≠ "" ∧ r.iso_code ≠ "") := by
  unfold partOf
  rw [List.mem_filter]
  simp

theorem jsMax_map_sort {recs : List CovidData} (h : recs ≠ []) (f : CovidData → Rat) :
    jsMax ((sortByDateDesc recs).map f) = jsMax (recs.map f) := by
  apply jsMax_congr
  · intro hc
    exact h (sortByDateDesc_eq_nil.mp (List.map_eq_nil_iff.mp hc))
  · intro hc
    exact h (List.map_eq_nil_iff.mp hc)
  · intro y
    constructor
    · intro hy
      rcases List.mem_map.mp hy with ⟨r, hr, hf⟩
      exact List.mem_map.mpr ⟨r, mem_sortByDateDesc.mp hr, hf⟩
    · intro hy
      rcases List.mem_map.mp hy with ⟨r, hr, hf⟩
      exact List.mem_map.mpr ⟨r, mem_sortByDateDesc.mpr hr, hf⟩

/-- The conjunction of facts available for every member of the aggregator's
output: its location keys a nonempty partition of the input, and the summary
was computed from that partition. -/
theorem processCountryData_spec {l : List CovidData} {cd : CountryData}
    (h : cd ∈ processCountryData l) :
    partOf l cd.location ≠ [] ∧
    cd.latestData ∈ partOf l cd.location ∧
    (∀ r ∈ partOf l cd.location, dateKey r.date ≤ dateKey cd.latestData.date) ∧
    cd.iso_code = cd.latestData.iso_code ∧
    cd.continent = cd.latestData.continent ∧
    cd.totalCases = jsMax ((partOf l cd.location).map (fun r => numOr0 r.total_cases)) ∧
    cd.totalDeaths = jsMax ((partOf l cd.location).map (fun r => numOr0 r.total_deaths)) ∧
    cd.totalVaccinations = jsMax ((partOf l cd.location).map (fun r => numOr0 r.total_vaccinations)) ∧
    cd.population = numOr0 cd.latestData.population ∧
    cd.casesPerMillion = numOr0 cd.latestData.total_cases_per_million ∧
    cd.deathsPerMillion = numOr0 cd.latestData.total_deaths_per_million ∧
    cd.vaccinationRate = numOr0 cd.latestData.total_vaccinations_per_hundred := by
  rcases mem_processCountryData.mp h with ⟨loc, hne, hp⟩
  have hloc : cd.location = loc := processCountry_location hp
  subst hloc
  rcases processCountry_eq_some hp with
    ⟨rest, hsort, _, hiso, hcont, hc, hd, hv, hpop, hcpm, hdpm, hvr⟩
  have hhead := head_sortByDateDesc_max hsort
  refine ⟨hne, hhead.1, hhead.2, hiso, hcont, ?_, ?_, ?_, hpop, hcpm, hdpm, hvr⟩
  · rw [hc, jsMax_map_sort hne]
  · rw [hd, jsMax_map_sort hne]
  · rw [hv, jsMax_map_sort hne]

/-! ### The claims -/

/-- C1.  For every input sequence and every country in the aggregator's
output, `totalCases`, `totalDeaths` and `totalVaccinations` each equal the
maximum, over all records of that country's partition of the input, of the
corresponding field coerced by `Number(-) || 0` (non-numeric and empty text
coerce to zero). -/
theorem aggregate_totals_are_partition_maxima_C1 (l : List CovidData) (cd : CountryData)
    (h : cd ∈ processCountryData l) :
    cd.totalCases = jsMax ((partOf l cd.location).map (fun r => numOr0 r.total_cases)) ∧
    cd.totalDeaths = jsMax ((partOf l cd.location).map (fun r => numOr0 r.total_deaths)) ∧
    cd.totalVaccinations = jsMax ((partOf l cd.location).map (fun r => numOr0 r.total_vaccinations)) := by
  rcases processCountryData_spec h with ⟨_, _, _, _, _, hc, hd, hv, _⟩
  exact ⟨hc, hd, hv⟩

theorem location_mem_keys {gs : List (String × List CovidData)} {cd : CountryData}
    (h : cd ∈ gs.filterMap (fun p => processCountry p.1 p.2)) :
    cd.location ∈ gs.map Prod.fst := by
  rcases List.mem_filterMap.mp h with ⟨p, hp, hcd⟩
  rw [processCountry_location hcd]
  exact List.mem_map_of_mem Prod.fst hp

theorem nodup_locations_aux :
    ∀ gs : List (String × List CovidData), (gs.map Prod.fst).Nodup →
      ((gs.filterMap (fun p => processCountry p.1 p.2)).map (fun cd => cd.location)).Nodup := by
  intro gs
  induction gs with
  | nil => intro _; simp
  | cons p ps ih =>
    intro h
    rw [List.map_cons, List.nodup_cons] at h
    rw [List.filterMap_cons]
    cases hp : processCountry p.1 p.2 with
    | none => exact ih h.2
    | some cd =>
      rw [List.map_cons, List.nodup_cons]
      refine ⟨?_, ih h.2⟩
      intro hc
      rcases List.mem_map.mp hc with ⟨cd', hcd', hloc⟩
      have hk : cd'.location ∈ ps.map Prod.fst := location_mem_keys hcd'
      rw [hloc, processCountry_location hp] at hk
      exact h.1 hk

theorem mem_worldMap_countryDataMap_keys {l : List CovidData} {q : String × CountryData}
    (h : q ∈ WorldMap.countryDataMap l) : q.1 ∈ (countryGroups l).map Prod.fst := by
  rcases List.mem_filterMap.mp h with ⟨p, hp, hq⟩
  rcases Option.map_eq_some'.mp hq with ⟨cd, _, hq'⟩
  rw [← hq']
  exact List.mem_map_of_mem Prod.fst hp

/-- C2.  The aggregator keeps exactly one Country Summary per distinct
non-empty location appearing on a record that also carries a non-empty
`iso_code`; records with empty `location` or `iso_code` are silently
excluded, and neither the output list nor the WorldMap's `Map` ever carries
an entry keyed by the empty string. -/
theorem one_summary_per_location_C2 (l : List CovidData) :
    ((processCountryData l).map (fun cd => cd.location)).Nodup ∧
    (∀ loc, (∃ cd, cd ∈ processCountryData l ∧ cd.location = loc) ↔
      (loc ≠ "" ∧ ∃ r, r ∈ l ∧ r.location = loc ∧ r.iso_code ≠ "")) ∧
    (∀ cd, cd ∈ processCountryData l → cd.location ≠ "") ∧
    mapGet (WorldMap.countryDataMap l) "" = none := by
  have hiff : ∀ loc, (∃ cd, cd ∈ processCountryData l ∧ cd.location = loc) ↔
      (loc ≠ "" ∧ ∃ r, r ∈ l ∧ r.location = loc ∧ r.iso_code ≠ "") := by
    intro loc
    constructor
    · intro ⟨cd, hcd, hloc⟩
      subst hloc
      rcases mem_processCountryData.mp hcd with ⟨loc', hne, hp⟩
      have hl' : cd.location = loc' := processCountry_location hp
      rw [hl']
      rcases List.exists_mem_of_ne_nil _ hne with ⟨r, hr⟩
      rcases mem_partOf.mp hr with ⟨hrl, hrloc, hrne, hriso⟩
      exact ⟨hrloc ▸ hrne, r, hrl, hrloc, hriso⟩
    · intro ⟨hne, r, hrl, hrloc, hriso⟩
      have hr : r ∈ partOf l loc :=
        mem_partOf.mpr ⟨hrl, hrloc, hrloc ▸ hne, hriso⟩
      have hpne : partOf l loc ≠ [] := List.ne_nil_of_mem hr
      rcases @processCountry_ne_none loc _ hpne with ⟨cd, hcd⟩
      exact ⟨cd, mem_processCountryData.mpr ⟨loc, hpne, hcd⟩, processCountry_location hcd⟩
  refine ⟨nodup_locations_aux (countryGroups l) (nodup_keys_countryGroups l), hiff, ?_, ?_⟩
  · intro cd hcd
    have := (hiff cd.location).mp ⟨cd, hcd, rfl⟩
    exact this.1
  · rw [mapGet, Option.map_eq_none', List.find?_eq_none]
    intro q hq
    have hk := mem_worldMap_countryDataMap_keys hq
    have : q.1 ≠ "" := keys_countryGroups_ne_empty l q.1 hk
    exact beq_eq_false_iff_ne.mpr this ▸ (by simp [this])

/-- C3.  The `latestData` of each summary is a record of its country's
partition with the maximum date (under the date comparator), and the
identity fields and convenience scalars are taken (coerced) from that
latest record. -/
theorem latest_record_selection_C3 (l : List CovidData) (cd : CountryData)
    (h : cd ∈ processCountryData l) :
    cd.latestData ∈ partOf l cd.location ∧
    (∀ r ∈ partOf l cd.location, dateKey r.date ≤ dateKey cd.latestData.date) ∧
    cd.iso_code = cd.latestData.iso_code ∧
    cd.continent = cd.latestData.continent ∧
    cd.population = numOr0 cd.latestData.population ∧
    cd.casesPerMillion = numOr0 cd.latestData.total_cases_per_million ∧
    cd.deathsPerMillion = numOr0 cd.latestData.total_deaths_per_million ∧
    cd.vaccinationRate = numOr0 cd.latestData.total_vaccinations_per_hundred := by
  rcases processCountryData_spec h with
    ⟨_, hmem, hmax, hiso, hcont, _, _, _, hpop, hcpm, hdpm, hvr⟩
  exact ⟨hmem, hmax, hiso, hcont, hpop, hcpm, hdpm, hvr⟩

/-- C9.  Each aggregate scalar is bounded below by the corresponding field
of the latest record, coerced: the maximum ranges over a partition that
contains the latest record. -/
theorem totals_bound_latest_C9 (l : List CovidData) (cd : CountryData)
    (h : cd ∈ processCountryData l) :
    numOr0 cd.latestData.total_cases ≤ cd.totalCases ∧
    numOr0 cd.latestData.total_deaths ≤ cd.totalDeaths ∧
    numOr0 cd.latestData.total_vaccinations ≤ cd.totalVaccinations := by
  rcases processCountryData_spec h with
    ⟨_, hmem, _, _, _, hc, hd, hv, _⟩
  refine ⟨?_, ?_, ?_⟩
  · rw [hc]
    exact le_jsMax (List.mem_map.mpr ⟨cd.latestData, hmem, rfl⟩)
  · rw [hd]
    exact le_jsMax (List.mem_map.mpr ⟨cd.latestData, hmem, rfl⟩)
  · rw [hv]
    exact le_jsMax (List.mem_map.mpr ⟨cd.latestData, hmem, rfl⟩)

/-! ### The two duplicated aggregation pipelines agree (C5) -/

theorem worldMap_countryGroups_eq (l : List CovidData) :
    WorldMap.countryGroups l = countryGroups l := rfl

theorem worldMap_processCountry_eq (loc : String) (recs : List CovidData) :
    WorldMap.processCountry loc recs = processCountry loc recs := rfl

theorem countryDataMap_filterMap_aux :
    ∀ gs : List (String × List CovidData),
      gs.filterMap (fun p => (processCountry p.1 p.2).map (fun cd => (p.1, cd))) =
        (gs.filterMap (fun p => processCountry p.1 p.2)).map (fun cd => (cd.location, cd)) := by
  intro gs
  induction gs with
  | nil => rfl
  | cons p ps ih =>
    rw [List.filterMap_cons, List.filterMap_cons]
    cases hp : processCountry p.1 p.2 with
    | none => simpa using ih
    | some cd =>
      simp only [Option.map_some', List.map_cons]
      rw [ih, processCountry_location hp]

/-- C5.  The two independent aggregation implementations — the CSV parser's
`processCountryData` and the WorldMap component's `countryDataMap` memo —
compute the same Country Summary for every country on every input: the list
produced by the first, keyed by location, is exactly the map produced by
the second. -/
theorem duplicate_aggregators_agree_C5 (l : List CovidData) :
    WorldMap.countryDataMap l = (processCountryData l).map (fun cd => (cd.location, cd)) := by
  rw [WorldMap.countryDataMap, worldMap_countryGroups_eq, processCountryData]
  have h : (fun p : String × List CovidData =>
      (WorldMap.processCountry p.1 p.2).map (fun cd => (p.1, cd))) =
      (fun p : String × List CovidData =>
      (processCountry p.1 p.2).map (fun cd => (p.1, cd))) := rfl
  rw [h, countryDataMap_filterMap_aux]

/-- C4.  The color classifier is a pure, total function of the
cases-per-million metric: a missing Country Summary, an exactly-zero value
and NaN all map to the distinguished no-data color, which differs from the
lowest real bucket's color; every other value is classified by the
ascending thresholds 1,000 / 10,000 / 50,000 / 100,000 / 200,000 / 500,000
/ 1,000,000 into 8 buckets with strictly-less-than semantics, so a value
exactly at a boundary falls into the higher bucket. -/
theorem color_classifier_C4 :
    (∀ m name, mapGet m name = none → getCountryColor m name = "#f0f0f0") ∧
    classifyCasesPerMillion JsNum.nan = "#f0f0f0" ∧
    classifyCasesPerMillion (JsNum.val 0) = "#f0f0f0" ∧
    "#f0f0f0" ≠ "#e8f5e8" ∧
    (∀ q : Rat, q ≠ 0 →
      (q < 1000 → classifyCasesPerMillion (JsNum.val q) = "#e8f5e8") ∧
      (1000 ≤ q → q < 10000 → classifyCasesPerMillion (JsNum.val q) = "#c8e6c9") ∧
      (10000 ≤ q → q < 50000 → classifyCasesPerMillion (JsNum.val q) = "#81c784") ∧
      (50000 ≤ q → q < 100000 → classifyCasesPerMillion (JsNum.val q) = "#4caf50") ∧
      (100000 ≤ q → q < 200000 → classifyCasesPerMillion (JsNum.val q) = "#388e3c") ∧
      (200000 ≤ q → q < 500000 → classifyCasesPerMillion (JsNum.val q) = "#ff9800") ∧
      (500000 ≤ q → q < 1000000 → classifyCasesPerMillion (JsNum.val q) = "#f57c00") ∧
      (1000000 ≤ q → classifyCasesPerMillion (JsNum.val q) = "#d32f2f")) ∧
    classifyCasesPerMillion (JsNum.val 999) = "#e8f5e8" ∧
    classifyCasesPerMillion (JsNum.val 1000) = "#c8e6c9" ∧
    classifyCasesPerMillion (JsNum.val 1000000) = "#d32f2f" := by
  refine ⟨?_, rfl, by decide, by decide, ?_, by decide, by decide, by decide⟩
  · intro m name h
    rw [getCountryColor, h]
  · intro q hq
    have b1 : (1000 : Rat) ≤ 10000 := by norm_num
    have b2 : (10000 : Rat) ≤ 50000 := by norm_num
    have b3 : (50000 : Rat) ≤ 100000 := by norm_num
    have b4 : (100000 : Rat) ≤ 200000 := by norm_num
    have b5 : (200000 : Rat) ≤ 500000 := by norm_num
    have b6 : (500000 : Rat) ≤ 1000000 := by norm_num
    refine ⟨?_, ?_, ?_, ?_, ?_, ?_, ?_, ?_⟩
    · intro h
      simp [classifyCasesPerMillion, hq, h]
    · intro h1 h2
      simp [classifyCasesPerMillion, hq, not_lt.mpr h1, h2]
    · intro h1 h2
      simp [classifyCasesPerMillion, hq, not_lt.mpr (le_trans b1 h1),
        not_lt.mpr h1, h2]
    · intro h1 h2
      simp [classifyCasesPerMillion, hq, not_lt.mpr (le_trans (le_trans b1 b2) h1),
        not_lt.mpr (le_trans b2 h1), not_lt.mpr h1, h2]
    · intro h1 h2
      simp [classifyCasesPerMillion, hq,
        not_lt.mpr (le_trans (le_trans (le_trans b1 b2) b3) h1),
        not_lt.mpr (le_trans (le_trans b2 b3) h1),
        not_lt.mpr (le_trans b3 h1), not_lt.mpr h1, h2]
    · intro h1 h2
      simp [classifyCasesPerMillion, hq,
        not_lt.mpr (le_trans (le_trans (le_trans (le_trans b1 b2) b3) b4) h1),
        not_lt.mpr (le_trans (le_trans (le_trans b2 b3) b4) h1),
        not_lt.mpr (le_trans (le_trans b3 b4) h1),
        not_lt.mpr (le_trans b4 h1), not_lt.mpr h1, h2]
    · intro h1 h2
      simp [classifyCasesPerMillion, hq,
        not_lt.mpr (le_trans (le_trans (le_trans (le_trans (le_trans b1 b2) b3) b4) b5) h1),
        not_lt.mpr (le_trans (le_trans (le_trans (le_trans b2 b3) b4) b5) h1),
        not_lt.mpr (le_trans (le_trans (le_trans b3 b4) b5) h1),
        not_lt.mpr (le_trans (le_trans b4 b5) h1),
        not_lt.mpr (le_trans b5 h1), not_lt.mpr h1, h2]
    · intro h1
      simp [classifyCasesPerMillion, hq,
        not_lt.mpr (le_trans (le_trans (le_trans (le_trans (le_trans (le_trans b1 b2) b3) b4) b5) b6) h1),
        not_lt.mpr (le_trans (le_trans (le_trans (le_trans (le_trans b2 b3) b4) b5) b6) h1),
        not_lt.mpr (le_trans (le_trans (le_trans (le_trans b3 b4) b5) b6) h1),
        not_lt.mpr (le_trans (le_trans (le_trans b4 b5) b6) h1),
        not_lt.mpr (le_trans (le_trans b5 b6) h1),
        not_lt.mpr (le_trans b6 h1), not_lt.mpr h1]

/-- C10.  A strictly negative cases-per-million value is classified into
the lowest real bucket color (negative numbers are nonzero, not NaN, and
below the 1,000 threshold), the same color every positive value below
1,000 receives — not the no-data color. -/
theorem negative_metric_lowest_bucket_C10 :
    (∀ q : Rat, q < 0 → classifyCasesPerMillion (JsNum.val q) = "#e8f5e8") ∧
    (∀ q : Rat, 0 < q → q < 1000 → classifyCasesPerMillion (JsNum.val q) = "#e8f5e8") ∧
    "#e8f5e8" ≠ "#f0f0f0" := by
  refine ⟨?_, ?_, by decide⟩
  · intro q hq
    have h1 : q ≠ 0 := ne_of_lt hq
    have h2 : q < 1000 := lt_trans hq (by norm_num)
    simp [classifyCasesPerMillion, h1, h2]
  · intro q hq h2
    have h1 : q ≠ 0 := (ne_of_lt hq).symm
    simp [classifyCasesPerMillion, h1, h2]

/-- C6.  Selecting a country name that misses the current mapping is a
no-op: no `onCountrySelect` notification fires and the selection is left
unchanged; on a hit exactly one notification fires, carrying the found
summary, and the selection becomes that summary. -/
theorem unknown_selection_noop_C6 (m : List (String × CountryData))
    (sel : Option CountryData) (name : String) :
    (mapGet m name = none →
      handleCountryClick m name = [] ∧
      applySelection sel (handleCountryClick m name) = sel) ∧
    (∀ cd, mapGet m name = some cd →
      handleCountryClick m name = [cd] ∧
      applySelection sel (handleCountryClick m name) = some cd) := by
  constructor
  · intro h
    rw [handleCountryClick, h]
    exact ⟨rfl, rfl⟩
  · intro cd h
    rw [handleCountryClick, h]
    exact ⟨rfl, rfl⟩

/-- C7.  When the dataset cannot be fetched (thrown network error or a
non-ok response such as a 404), `parseCSV` does not fail: it resolves to
the fixed hardcoded sample dataset, which is non-empty and covers at least
two continents (United States in North America; United Kingdom and Germany
in Europe). -/
theorem fetch_failure_fallback_C7 :
    parseCSV FetchResult.fetchError = getSampleData ∧
    parseCSV FetchResult.notOk = getSampleData ∧
    getSampleData ≠ [] ∧
    (∃ r, r ∈ getSampleData ∧ r.location = "United States" ∧ r.continent = "North America") ∧
    (∃ r, r ∈ getSampleData ∧ r.location = "United Kingdom" ∧ r.continent = "Europe") ∧
    (∃ r, r ∈ getSampleData ∧ r.location = "Germany" ∧ r.continent = "Europe") := by
  refine ⟨rfl, rfl, by intro h; simp [getSampleData] at h, ?_, ?_, ?_⟩
  · exact ⟨_, List.mem_cons_self _ _, rfl, rfl⟩
  · exact ⟨_, List.mem_cons.mpr (Or.inr (List.mem_cons_self _ _)), rfl, rfl⟩
  · exact ⟨_, List.mem_cons.mpr (Or.inr (List.mem_cons.mpr (Or.inr (List.mem_cons_self _ _)))), rfl, rfl⟩

/-- C8.  Individually malformed rows are skipped without aborting the
decode (removing a malformed row from the decoder's input changes nothing,
and well-formed rows always come through), and a decode failure for the
whole dataset falls back to the same hardcoded sample used for fetch
failures. -/
theorem malformed_rows_skipped_C8 :
    (∀ rows1 rows2, papaData (rows1 ++ RowResult.malformed :: rows2) = papaData (rows1 ++ rows2)) ∧
    (∀ r rows, papaData (RowResult.good r :: rows) = r :: papaData rows) ∧
    (∀ rows, parseCSV (FetchResult.ok (PapaResult.complete rows)) = papaData rows) ∧
    parseCSV (FetchResult.ok PapaResult.error) = getSampleData := by
  refine ⟨?_, ?_, fun rows => rfl, rfl⟩
  · intro rows1 rows2
    simp [papaData, List.filterMap_append, List.filterMap_cons]
  · intro r rows
    simp [papaData, List.filterMap_cons]

/-! ### Concrete inputs instantiating the aggregation claims -/

/-- Alandia at the earlier date: cumulative cases 100. -/
def recAlandia1 : CovidData :=
  { iso_code := "AL", continent := "Europe", location := "Alandia", date := "2023-01-01",
    total_cases := .str "100", total_deaths := .str "1", total_vaccinations := .str "5",
    population := .str "1000", total_cases_per_million := .str "",
    total_deaths_per_million := .str "", total_vaccinations_per_hundred := .str "" }

/-- Alandia at the later date: cumulative cases revised down to 80. -/
def recAlandia2 : CovidData :=
  { iso_code := "AL", continent := "Europe", location := "Alandia", date := "2023-02-01",
    total_cases := .str "80", total_deaths := .str "2", total_vaccinations := .str "3",
    population := .str "1200", total_cases_per_million := .str "50",
    total_deaths_per_million := .str "2", total_vaccinations_per_hundred := .str "2" }

/-- Novia with every cumulative field empty. -/
def recNovia1 : CovidData :=
  { iso_code := "NV", continent := "Europe", location := "Novia", date := "2023-01-01",
    total_cases := .str "", total_deaths := .str "", total_vaccinations := .str "",
    population := .str "", total_cases_per_million := .str "",
    total_deaths_per_million := .str "", total_vaccinations_per_hundred := .str "" }

/-- Novia later, still empty, with one non-numeric text field. -/
def recNovia2 : CovidData :=
  { iso_code := "NV", continent := "Europe", location := "Novia", date := "2023-03-01",
    total_cases := .str "", total_deaths := .str "", total_vaccinations := .str "n/a",
    population := .str "", total_cases_per_million := .str "",
    total_deaths_per_million := .str "", total_vaccinations_per_hundred := .str "" }

/-- A two-country input interleaving Alandia and Novia records. -/
def exInput : List CovidData := [recAlandia1, recNovia1, recAlandia2, recNovia2]

/-- The summary the aggregator produces for Alandia: maxima 100/2/5 with
the later record as latest. -/
def cdAlandia : CountryData :=
  { location := "Alandia", iso_code := "AL", continent := "Europe", latestData := recAlandia2,
    totalCases := 100, totalDeaths := 2, totalVaccinations := 5, population := 1200,
    casesPerMillion := 50, deathsPerMillion := 2, vaccinationRate := 2 }

/-- The summary the aggregator produces for Novia: all scalars zero. -/
def cdNovia : CountryData :=
  { location := "Novia", iso_code := "NV", continent := "Europe", latestData := recNovia2,
    totalCases := 0, totalDeaths := 0, totalVaccinations := 0, population := 0,
    casesPerMillion := 0, deathsPerMillion := 0, vaccinationRate := 0 }

/-- The spec's Testland example, earlier record. -/
def recTestland1 : CovidData :=
  { iso_code := "TL", continent := "Oceania", location := "Testland", date := "2023-01-01",
    total_cases := .str "50", total_deaths := .str "1", total_vaccinations := .str "",
    population := .str "", total_cases_per_million := .str "",
    total_deaths_per_million := .str "", total_vaccinations_per_hundred := .str "" }

/-- The spec's Testland example, later record. -/
def recTestland2 : CovidData :=
  { iso_code := "TL", continent := "Oceania", location := "Testland", date := "2023-02-01",
    total_cases := .str "40", total_deaths := .str "2", total_vaccinations := .str "",
    population := .str "", total_cases_per_million := .str "",
    total_deaths_per_million := .str "", total_vaccinations_per_hundred := .str "" }

/-- The spec's two-record Testland input. -/
def testInput : List CovidData := [recTestland1, recTestland2]

/-- The summary the aggregator produces for Testland: `totalCases = 50`
(the maximum, not the latest), `totalDeaths = 2`, latest date 2023-02-01. -/
def cdTestland : CountryData :=
  { location := "Testland", iso_code := "TL", continent := "Oceania", latestData := recTestland2,
    totalCases := 50, totalDeaths := 2, totalVaccinations := 0, population := 0,
    casesPerMillion := 0, deathsPerMillion := 0, vaccinationRate := 0 }

/-- Witness for C1 at concrete inputs: Alandia (dates D1 < D2 carrying
cases 100 then 80) gets `totalCases = 100`, and Novia (every
`total_cases` empty) gets `totalCases = 0`. -/
theorem aggregate_totals_are_partition_maxima_C1_witness :
    (cdAlandia ∈ processCountryData exInput) ∧
    (cdAlandia.totalCases = jsMax ((partOf exInput cdAlandia.location).map (fun r => numOr0 r.total_cases)) ∧
      cdAlandia.totalDeaths = jsMax ((partOf exInput cdAlandia.location).map (fun r => numOr0 r.total_deaths)) ∧
      cdAlandia.totalVaccinations = jsMax ((partOf exInput cdAlandia.location).map (fun r => numOr0 r.total_vaccinations))) ∧
    cdAlandia.totalCases = 100 ∧
    (cdNovia ∈ processCountryData exInput) ∧
    cdNovia.totalCases = 0 :=
  ⟨by decide,
   aggregate_totals_are_partition_maxima_C1 exInput cdAlandia (by decide),
   by decide,
   by decide,
   by decide⟩

/-- Witness for C3 at the spec's Testland input: the aggregator indeed
produces `cdTestland`, whose `latestData` is the maximal-date record of the
partition, with `totalCases = 50`, `totalDeaths = 2` and
`latestData.date = "2023-02-01"`. -/
theorem latest_record_selection_C3_witness :
    (cdTestland ∈ processCountryData testInput) ∧
    (cdTestland.latestData ∈ partOf testInput cdTestland.location ∧
      (∀ r ∈ partOf testInput cdTestland.location,
        dateKey r.date ≤ dateKey cdTestland.latestData.date) ∧
      cdTestland.iso_code = cdTestland.latestData.iso_code ∧
      cdTestland.continent = cdTestland.latestData.continent ∧
      cdTestland.population = numOr0 cdTestland.latestData.population ∧
      cdTestland.casesPerMillion = numOr0 cdTestland.latestData.total_cases_per_million ∧
      cdTestland.deathsPerMillion = numOr0 cdTestland.latestData.total_deaths_per_million ∧
      cdTestland.vaccinationRate = numOr0 cdTestland.latestData.total_vaccinations_per_hundred) ∧
    cdTestland.totalCases = 50 ∧
    cdTestland.totalDeaths = 2 ∧
    cdTestland.latestData.date = "2023-02-01" :=
  ⟨by decide,
   latest_record_selection_C3 testInput cdTestland (by decide),
   by decide,
   by decide,
   rfl⟩

/-- Witness for C9 at the Testland input: each aggregate scalar dominates
the coerced field of the latest record (`50 ≥ 40`, `2 ≥ 2`, `0 ≥ 0`). -/
theorem totals_bound_latest_C9_witness :
    (cdTestland ∈ processCountryData testInput) ∧
    (numOr0 cdTestland.latestData.total_cases ≤ cdTestland.totalCases ∧
      numOr0 cdTestland.latestData.total_deaths ≤ cdTestland.totalDeaths ∧
      numOr0 cdTestland.latestData.total_vaccinations ≤ cdTestland.totalVaccinations) :=
  ⟨by decide, totals_bound_latest_C9 testInput cdTestland (by decide)⟩
